import Mathlib

/-!
Verification development for the ai-study-assistant retrieval pipeline.

Shallow embedding of the core modules:
  * `rag/vectorstore.py` and `backend/rag/vectorstore.py` (FAISS-backed store)
  * `rag/token_manager.py` (token estimation and truncation)
  * `rag/course_manager.py` (multi-course registry)
  * `rag/qa.py` and `backend/rag/qa.py` (question-answering orchestrators)
  * the chunker module (absent from the source tree; modelled from the spec)

Embedding vectors are modelled with exact integer coordinates; the FAISS
flat index stores the vectors and searches by squared Euclidean distance,
so exact arithmetic is a faithful stand-in for the ordering behaviour the
claims are about.
-/

namespace StudyAssistant

/-! ### Python string helpers -/

/-- Whitespace characters recognised by Python `str.split()` (ASCII subset:
space, tab, newline, carriage return, vertical tab, form feed). -/
def isPySpace (c : Char) : Bool :=
  c = ' ' || c = '\t' || c = '\n' || c = '\r' || c = '\x0b' || c = '\x0c'

/-- Worker for `pySplit`: walks the character list keeping the current
in-progress word (reversed) in the accumulator, emitting a word at each
whitespace boundary, exactly like CPython `str.split()` with no argument. -/
def pySplitAux : List Char → List Char → List String
  | [], [] => []
  | [], cur => [String.mk cur.reverse]
  | c :: rest, cur =>
    if isPySpace c then
      if cur = [] then pySplitAux rest []
      else String.mk cur.reverse :: pySplitAux rest []
    else pySplitAux rest (c :: cur)

/-- Python `s.split()`: split on runs of whitespace, discarding empty pieces. -/
def pySplit (s : String) : List String := pySplitAux s.data []

/-- Python `" ".join(words)`. -/
def joinWords : List String → String
  | [] => ""
  | [w] => w
  | w :: ws@(_ :: _) => w ++ " " ++ joinWords ws

/-- ASCII upper-casing of one character, as Python `str.upper` acts on the
ASCII range (course codes in this repository are ASCII). -/
def pyUpperChar (c : Char) : Char :=
  if 97 ≤ c.toNat ∧ c.toNat ≤ 122 then Char.ofNat (c.toNat - 32) else c

/-- ASCII lower-casing of one character, as Python `str.lower` acts on the
ASCII range. -/
def pyLowerChar (c : Char) : Char :=
  if 65 ≤ c.toNat ∧ c.toNat ≤ 90 then Char.ofNat (c.toNat + 32) else c

/-- Python `s.upper()` on ASCII text. -/
def pyUpper (s : String) : String := String.mk (s.data.map pyUpperChar)

/-- Python `s.lower()` on ASCII text. -/
def pyLower (s : String) : String := String.mk (s.data.map pyLowerChar)

/-! ### Vector store (`backend/rag/vectorstore.py`, `rag/vectorstore.py`) -/

/-- Python exception classes that the embedded code can raise. -/
inductive PyError where
  /-- `ValueError(msg)`. -/
  | valueError (msg : String)
  /-- `IndexError` from an out-of-bounds sequence subscript. -/
  | indexError
  /-- `FileNotFoundError`. -/
  | fileNotFoundError
deriving Repr, DecidableEq

/-- Decidable equality for `Except`, used to settle concrete runs of the
embedded fallible operations. -/
instance {ε α : Type} [DecidableEq ε] [DecidableEq α] : DecidableEq (Except ε α) := fun x y =>
  match x, y with
  | .ok a, .ok b =>
    if h : a = b then isTrue (by rw [h]) else isFalse (fun hh => h (Except.ok.inj hh))
  | .error a, .error b =>
    if h : a = b then isTrue (by rw [h]) else isFalse (fun hh => h (Except.error.inj hh))
  | .ok _, .error _ => isFalse (fun hh => Except.noConfusion hh)
  | .error _, .ok _ => isFalse (fun hh => Except.noConfusion hh)

/-- State of a `VectorStore`: the FAISS `IndexFlatL2` holds the dimension
`dim` and the appended vectors; `texts` is the parallel Python list of
chunk strings. -/
structure VectorStore where
  dim : Nat
  vectors : List (List ℤ)
  texts : List String
deriving Repr, DecidableEq

/-- Constructor path of `backend/rag/vectorstore.py` `VectorStore.__init__`
with `dim` given and no preloaded index: rejects `dim` that is not a
positive integer (`isinstance(dim, int)` and `dim > 0`), then creates an
empty `faiss.IndexFlatL2(dim)`.  A non-integer Python argument is modelled
as a rational with denominator ≠ 1. -/
def VectorStore.create (dim : ℚ) : Except PyError VectorStore :=
  if dim.den = 1 ∧ 0 < dim.num then
    .ok { dim := dim.num.toNat, vectors := [], texts := [] }
  else
    .error (.valueError "The dim parameter must be a positive integer")

/-- `VectorStore.add` of `backend/rag/vectorstore.py`.  The guard is
`len(vectors) == 0 or len(vectors[0]) != self.index.d`; with an empty batch
the f-string of the raise statement evaluates `vectors[0]` and so raises
`IndexError` instead.  A ragged batch fails inside
`np.array(vectors).astype("float32")` before any mutation.  On success the
FAISS index and the texts list are extended; there is no check that
`len(vectors) == len(chunks)`. -/
def VectorStore.add (vs : VectorStore) (vectors : List (List ℤ)) (chunks : List String) :
    Except PyError VectorStore :=
  match vectors with
  | [] => .error .indexError
  | v0 :: _ =>
    if v0.length ≠ vs.dim then
      .error (.valueError "Vector dimension mismatch")
    else if vectors.any (fun v => v.length ≠ v0.length) then
      .error (.valueError "setting an array element with a sequence")
    else
      .ok { vs with vectors := vs.vectors ++ vectors, texts := vs.texts ++ chunks }

/-- Squared Euclidean distance used by `faiss.IndexFlatL2`. -/
def sqDist (u v : List ℤ) : ℤ :=
  ((u.zip v).map (fun p => (p.1 - p.2) ^ 2)).sum

/-- Ranking order used to model the exhaustive FAISS flat search: ascending
distance, ties broken by the smaller database index. -/
def rankLE (a b : Nat × ℤ) : Bool := a.2 < b.2 || (a.2 = b.2 && a.1 ≤ b.1)

/-- Insertion step of the ranking sort. -/
def insertRanked (x : Nat × ℤ) : List (Nat × ℤ) → List (Nat × ℤ)
  | [] => [x]
  | y :: ys => if rankLE x y then x :: y :: ys else y :: insertRanked x ys

/-- Insertion sort by `rankLE`. -/
def sortRanked : List (Nat × ℤ) → List (Nat × ℤ)
  | [] => []
  | x :: xs => insertRanked x (sortRanked xs)

/-- `faiss.IndexFlatL2.search` for one query: rank all stored vectors by
ascending squared Euclidean distance, return the first `k` database ids,
and pad with `-1` when fewer than `k` vectors are stored (FAISS fills
missing result slots with label `-1`). -/
def faissSearch (db : List (List ℤ)) (q : List ℤ) (k : Nat) : List Int :=
  let ranked := (List.range db.length).map (fun i => (i, sqDist q (db.getD i [])))
  let top := ((sortRanked ranked).take k).map (fun p => (p.1 : Int))
  top ++ List.replicate (k - top.length) (-1)

/-- Python list subscript `texts[i]` with an `int` index: negative indices
wrap around from the end; an index out of range after wrapping raises
`IndexError` (modelled as `none`). -/
def pyGetElem (texts : List String) (i : Int) : Option String :=
  let j : Int := if 0 ≤ i then i else (texts.length : Int) + i
  if 0 ≤ j ∧ j < (texts.length : Int) then texts.get? j.toNat else none

/-- `VectorStore.search` (identical in both source variants): run the FAISS
search, then the comprehension
`[self.texts[i] for i in indices[0] if i is not None and i < len(self.texts)]`.
The filter checks only the upper bound, so the `-1` padding labels pass it;
the subscript then wraps around (or raises `IndexError` on an empty texts
list, surfacing as `.error .indexError`). -/
def VectorStore.search (vs : VectorStore) (q : List ℤ) (k : Nat) :
    Except PyError (List String) :=
  let idxs := (faissSearch vs.vectors q k).filter (fun i => i < (vs.texts.length : Int))
  idxs.mapM (fun i =>
    match pyGetElem vs.texts i with
    | some t => Except.ok t
    | none => Except.error PyError.indexError)

/-! ### Persistence (`rag/vectorstore.py` `save` / `load`) -/

/-- Contents of one file written by `VectorStore.save`: either the FAISS
index file (which serialises the dimension `d` and the stored vectors) or
the pickled texts list. -/
inductive FsFile where
  | indexFile (d : Nat) (vectors : List (List ℤ))
  | textsFile (texts : List String)
deriving Repr, DecidableEq

/-- A file system: a map from path to file contents. -/
def Fs : Type := String → Option FsFile

/-- `VectorStore.save(path_prefix)`: writes `<p>.index` with
`faiss.write_index` and `<p>_texts.pkl` with `pickle.dump`. -/
def VectorStore.save (vs : VectorStore) (p : String) (fs : Fs) : Fs :=
  fun q =>
    if q = p ++ "_texts.pkl" then some (.textsFile vs.texts)
    else if q = p ++ ".index" then some (.indexFile vs.dim vs.vectors)
    else fs q

/-- `VectorStore.load(path_prefix)`: raises `FileNotFoundError` unless both
`<p>.index` and `<p>_texts.pkl` exist; otherwise reads the index (taking
`dim` from `index.d`) and unpickles the texts, rebuilding the store.  A
file of the wrong shape fails inside `faiss.read_index` / `pickle.load`. -/
def VectorStore.load (p : String) (fs : Fs) : Except PyError VectorStore :=
  match fs (p ++ ".index"), fs (p ++ "_texts.pkl") with
  | some (.indexFile d vecs), some (.textsFile ts) =>
    .ok { dim := d, vectors := vecs, texts := ts }
  | some _, some _ => .error (.valueError "unreadable index or texts artifact")
  | _, _ => .error .fileNotFoundError

/-! ### Token manager (`rag/token_manager.py`) -/

/-- The module constant `CHARS_PER_TOKEN = 4`. -/
def CHARS_PER_TOKEN : Nat := 4

/-- The module constant `RESERVED_TOKENS = 500`. -/
def RESERVED_TOKENS : Nat := 500

/-- The module table `TOKEN_LIMITS`. -/
def TOKEN_LIMITS : List (String × Nat) :=
  [("gpt-4o-mini", 128000), ("gpt-4o", 128000), ("gpt-4-turbo", 128000),
   ("gpt-3.5-turbo", 4096)]

/-- `estimate_tokens(text)`: the larger of `int(word_count * 1.3)` and
`int(char_count / 4)`.  Over IEEE doubles, `float(1.3)` is slightly above
13/10, and for every word count below 2^40 the product truncates to exactly
`13 * words / 10`; `chars / 4` is exact in binary, so the embedding uses
the corresponding exact natural-number divisions. -/
def estimate_tokens (text : String) : Nat :=
  max (13 * (pySplit text).length / 10) (text.length / CHARS_PER_TOKEN)

/-- `get_token_limit(model)`: table lookup with fallback 4096. -/
def get_token_limit (model : String) : Nat :=
  (TOKEN_LIMITS.lookup model).getD 4096

/-- Loop of `truncate_chunks_by_tokens`: running total starts at 0; each
chunk is accepted while `total + chunk_tokens <= max_tokens`, and the first
overflowing chunk breaks the loop. -/
def truncateAux (max_tokens : Nat) : List String → Nat → List String
  | [], _ => []
  | c :: rest, total =>
    if total + estimate_tokens c ≤ max_tokens then
      c :: truncateAux max_tokens rest (total + estimate_tokens c)
    else []

/-- `truncate_chunks_by_tokens(chunks, max_tokens)`. -/
def truncate_chunks_by_tokens (chunks : List String) (max_tokens : Nat) : List String :=
  truncateAux max_tokens chunks 0

/-- Diagnostics dictionary returned by `is_prompt_safe`. -/
structure TokenInfo where
  estimated_tokens : Nat
  token_limit : Nat
  reserved : Nat
  available_tokens : Nat
  safe : Bool
deriving Repr, DecidableEq

/-- `is_prompt_safe(prompt, model)`: safe iff the estimate fits in
`limit - RESERVED_TOKENS`. -/
def is_prompt_safe (prompt model : String) : Bool × TokenInfo :=
  let token_limit := get_token_limit model
  let estimated := estimate_tokens prompt
  let available := token_limit - RESERVED_TOKENS
  let safe := estimated ≤ available
  (safe, ⟨estimated, token_limit, RESERVED_TOKENS, available, safe⟩)

/-! ### Prompt rendering (`rag/prompt.py`) -/

/-- `build_prompt(question, context)`: joins the chunks with the fixed
separator and wraps them in the fixed instruction template. -/
def build_prompt (question : String) (context : List String) : String :=
  "\nYou are a helpful study assistant.\n\nUse ONLY the following notes to answer the question.\nIf the answer is not found, say: \"The notes do not contain this information.\"\n\nNotes:\n"
    ++ String.intercalate "\n\n---\n\n" context
    ++ "\n\nQuestion: " ++ question ++ "\n\nAnswer:\n"

/-! ### Chunker (modelled from the spec) -/

/-- Modelled from the spec: the chunker module (`rag/chunker.py`) is missing
from the source tree — only its test (`backend/tests/test_chunker.py`) and
its callers are present.  Spec §4.1: split the text on whitespace into a
word sequence of length N, produce successive windows of `chunk_size`
words, advancing the window start by `chunk_size - overlap` each step,
until the window start would exceed N; the final window still includes all
remaining words.  This worker recurses on the remaining word list; `fuel`
bounds the recursion and is irrelevant whenever the step is positive and
`fuel` is at least the word count (the spec makes `overlap >= chunk_size` a
caller error, which the claims exclude). -/
def chunkWordsAux (size step : Nat) : Nat → List String → List (List String)
  | _, [] => []
  | 0, _ :: _ => []
  | fuel + 1, w :: ws => (w :: ws).take size :: chunkWordsAux size step fuel ((w :: ws).drop step)

/-- Modelled from the spec: the word-window sequence underlying
`chunk_text` — successive `chunk_size`-word windows advancing by
`chunk_size - overlap`. -/
def chunkWords (ws : List String) (size ov : Nat) : List (List String) :=
  chunkWordsAux size (size - ov) ws.length ws

/-- Modelled from the spec: `chunk_text(text, chunk_size=500, overlap=50)`
splits `text` on whitespace and joins each word window back with single
spaces (the test re-splits the produced chunks to compare words). -/
def chunk_text (text : String) (size : Nat := 500) (ov : Nat := 50) : List String :=
  (chunkWords (pySplit text) size ov).map joinWords

/-- A word as produced by `pySplit`: nonempty and free of whitespace. -/
def goodWord (w : String) : Prop :=
  w.data ≠ [] ∧ ∀ c ∈ w.data, isPySpace c = false

instance (w : String) : Decidable (goodWord w) := by
  unfold goodWord
  infer_instance

/-- The 1100-word input of `backend/tests/test_chunker.py`: 1100 copies of
the word `w` joined by single spaces. -/
def text1100 : String := joinWords (List.replicate 1100 "w")

/-! ### Course manager (`rag/course_manager.py`) -/

/-- Default of `DEFAULT_COURSE = os.getenv("DEFAULT_COURSE", "COMP2123")`. -/
def DEFAULT_COURSE : String := "COMP2123"

/-- Default of `NOTES_BASE_DIR = os.getenv("NOTES_BASE_DIR", "data/notes")`. -/
def NOTES_BASE_DIR : String := "data/notes"

/-- Default of `INDEX_BASE_DIR = os.getenv("INDEX_BASE_DIR", "data/index")`. -/
def INDEX_BASE_DIR : String := "data/index"

/-- `get_course_notes_path(course_code)`:
`os.path.join(NOTES_BASE_DIR, course_code)` — the identifier is used
verbatim, with no canonicalization. -/
def get_course_notes_path (course_code : String) : String :=
  NOTES_BASE_DIR ++ "/" ++ course_code

/-- `get_course_index_path(course_code)`:
`os.path.join(INDEX_BASE_DIR, course_code.lower())` (after ensuring the
base directory exists — a side effect with no bearing on the result). -/
def get_course_index_path (course_code : String) : String :=
  INDEX_BASE_DIR ++ "/" ++ pyLower course_code

/-- The `_course_stores` in-memory cache: a map from course code to the
loaded store. -/
def Cache : Type := String → Option VectorStore

/-- `get_course_store(course_code)`: `_course_stores.get(course_code.upper())`. -/
def get_course_store (cache : Cache) (course_code : String) : Option VectorStore :=
  cache (pyUpper course_code)

/-- `set_course_store(course_code, store)`:
`_course_stores[course_code.upper()] = store`. -/
def set_course_store (cache : Cache) (course_code : String) (store : VectorStore) : Cache :=
  fun k => if k = pyUpper course_code then some store else cache k

/-- `clear_course_cache(course_code)` for a specific course: deletes the
upper-cased key. -/
def clear_course_cache (cache : Cache) (course_code : String) : Cache :=
  fun k => if k = pyUpper course_code then none else cache k

/-- Outcome of the `VectorStore.load` call made by `load_course_store`,
abstracting the file system: success, `FileNotFoundError`, or any other
exception. -/
inductive LoadOutcome where
  | ok (vs : VectorStore)
  | notFound
  | otherError (msg : String)
deriving Repr, DecidableEq

/-- `load_course_store(course_code)`: returns the cached store for the
upper-cased code if present; otherwise calls
`VectorStore.load(get_course_index_path(course_code))`.  On success the
store is cached and returned; `except FileNotFoundError` returns `None`;
`except Exception` also logs and returns `None`.  `diskLoad` gives the
outcome of the load at each path.  Returns the result and the updated
cache. -/
def load_course_store (cache : Cache) (diskLoad : String → LoadOutcome)
    (course_code : String) : Option VectorStore × Cache :=
  let upper := pyUpper course_code
  match cache upper with
  | some vs => (some vs, cache)
  | none =>
    match diskLoad (get_course_index_path course_code) with
    | .ok vs => (some vs, fun k => if k = upper then some vs else cache k)
    | .notFound => (none, cache)
    | .otherError _ => (none, cache)

/-! ### Question answering (`rag/qa.py` and `backend/rag/qa.py`) -/

/-- Exception classes distinguished by the handlers of
`rag/qa.py answer_question`: `openai.AuthenticationError`,
`openai.RateLimitError`, `openai.APIError`, and any other exception. -/
inductive ApiExc where
  | auth (msg : String)
  | rateLimit (msg : String)
  | api (msg : String)
  | other (msg : String)
deriving Repr, DecidableEq

/-- `answer_question(question, course_code)` of `rag/qa.py`.  External
effects are passed as outcomes: `cached` is the result of
`get_course_store`, `loaded` that of `load_course_store` (consulted only
when the cache misses), `embedOutcome` the result of
`model.encode([question])[0]`, and `genOutcome` the result of the OpenAI
chat-completion call.  The whole pipeline after store resolution runs in
one `try`: any failure is classified by the four `except` clauses into a
returned message; every path returns a string. -/
def answer_question (courseCodeArg : Option String) (question : String)
    (cached loaded : Option VectorStore)
    (embedOutcome : Except ApiExc (List ℤ)) (genOutcome : Except ApiExc String) : String :=
  let course_code := courseCodeArg.getD DEFAULT_COURSE
  let course_store := match cached with
    | some vs => some vs
    | none => loaded
  match course_store with
  | none =>
    "Error: Knowledge base for course " ++ pyUpper course_code
      ++ " is not initialized. Please run: scripts/manage_index.py build --notes "
      ++ get_course_notes_path course_code
  | some vs =>
    let attempt : Except ApiExc String :=
      match embedOutcome with
      | .error e => .error e
      | .ok q_vec =>
        match vs.search q_vec 3 with
        | .error e => .error (ApiExc.other (reprStr e))
        | .ok context_chunks =>
          let safe_chunks := truncate_chunks_by_tokens context_chunks 120000
          let prompt := build_prompt question safe_chunks
          let checked := is_prompt_safe prompt "gpt-4o-mini"
          let _prompt2 :=
            if checked.1 then prompt
            else build_prompt question (truncate_chunks_by_tokens safe_chunks 15000)
          genOutcome
    match attempt with
    | .ok answer => answer
    | .error (.auth _) => "Error: Authentication failed. Please check your OpenAI API key."
    | .error (.rateLimit _) => "Error: Too many requests to OpenAI. Please try again later."
    | .error (.api _) => "Error: OpenAI API error. Please try again."
    | .error (.other m) => "Error: " ++ m

/-- `answer_question(question, course_code)` of `backend/rag/qa.py`: each
stage has its own `try`, producing a distinct message; an empty search
result returns the fixed not-found-in-notes sentence before any generation
call; every path returns a string. -/
def backendAnswerQuestion (courseCodeArg : Option String) (question : String)
    (cached loaded : Option VectorStore)
    (embedOutcome : Except String (List ℤ)) (genOutcome : Except String String) : String :=
  let course_code := courseCodeArg.getD DEFAULT_COURSE
  let upper := pyUpper course_code
  let vs0 := match cached with
    | some vs => some vs
    | none => loaded
  match vs0 with
  | none =>
    "Knowledge base for course " ++ upper
      ++ " is not initialized. Please run: python scripts/manage_index.py build --course "
      ++ upper
  | some vs =>
    match embedOutcome with
    | .error e => "Error: Failed to process question: " ++ e
    | .ok question_vector =>
      match vs.search question_vector 3 with
      | .error e => "Error: Failed to search knowledge base: " ++ reprStr e
      | .ok relevant_chunks =>
        if relevant_chunks = [] then
          "I could not find relevant information in the course materials to answer your question."
        else
          let prompt := build_prompt question relevant_chunks
          let checked := is_prompt_safe prompt "gpt-4o-mini"
          let _prompt2 :=
            if checked.1 then prompt
            else
              build_prompt question
                (truncate_chunks_by_tokens relevant_chunks (checked.2.available_tokens - 100))
          match genOutcome with
          | .ok answer => answer
          | .error e => "Error: Failed to generate answer: " ++ e

/-! ### Case-mapping lemmas -/

/-- Characters built from valid scalar values keep their code point. -/
theorem toNat_ofNat_valid {n : Nat} (h : n.isValidChar) : (Char.ofNat n).toNat = n := by
  unfold Char.ofNat
  rw [dif_pos h]
  unfold Char.ofNatAux Char.toNat
  simp [UInt32.toNat]

/-- Small code points are valid scalar values. -/
theorem valid_of_le_200 (n : Nat) (h : n ≤ 200) : n.isValidChar := Or.inl (by omega)

/-- Code point of the upper-cased character. -/
theorem pyUpperChar_toNat (c : Char) :
    (pyUpperChar c).toNat
      = if 97 ≤ c.toNat ∧ c.toNat ≤ 122 then c.toNat - 32 else c.toNat := by
  unfold pyUpperChar
  by_cases h : 97 ≤ c.toNat ∧ c.toNat ≤ 122
  · rw [if_pos h, if_pos h, toNat_ofNat_valid (valid_of_le_200 _ (by omega))]
  · rw [if_neg h, if_neg h]

/-- Code point of the lower-cased character. -/
theorem pyLowerChar_toNat (c : Char) :
    (pyLowerChar c).toNat
      = if 65 ≤ c.toNat ∧ c.toNat ≤ 90 then c.toNat + 32 else c.toNat := by
  unfold pyLowerChar
  by_cases h : 65 ≤ c.toNat ∧ c.toNat ≤ 90
  · rw [if_pos h, if_pos h, toNat_ofNat_valid (valid_of_le_200 _ (by omega))]
  · rw [if_neg h, if_neg h]

/-- Characters agree when their code points do. -/
theorem char_eq_of_toNat_eq {a b : Char} (h : a.toNat = b.toNat) : a = b := by
  have := congrArg Char.ofNat h
  simpa using this

/-- Upper-casing is idempotent. -/
theorem pyUpperChar_idem (c : Char) : pyUpperChar (pyUpperChar c) = pyUpperChar c := by
  apply char_eq_of_toNat_eq
  rw [pyUpperChar_toNat, pyUpperChar_toNat]
  split_ifs <;> omega

/-- Lower-casing after upper-casing equals plain lower-casing. -/
theorem pyLowerChar_pyUpperChar (c : Char) :
    pyLowerChar (pyUpperChar c) = pyLowerChar c := by
  apply char_eq_of_toNat_eq
  rw [pyLowerChar_toNat, pyUpperChar_toNat, pyLowerChar_toNat]
  split_ifs <;> omega

/-- String-level idempotence of Python upper-casing (ASCII model). -/
theorem pyUpper_idem (s : String) : pyUpper (pyUpper s) = pyUpper s := by
  unfold pyUpper
  simp [List.map_map, Function.comp_def, pyUpperChar_idem]

/-- String-level composition law: lower-casing an upper-cased identifier
agrees with lower-casing it directly (ASCII model). -/
theorem pyLower_pyUpper (s : String) : pyLower (pyUpper s) = pyLower s := by
  unfold pyLower pyUpper
  simp [List.map_map, Function.comp_def, pyLowerChar_pyUpperChar]

/-! ### Claim C2 -/

/-- C2: loading after saving reconstructs the vector index exactly — same
`dim`, same chunk sequence, same vector contents — and therefore identical
nearest-neighbor results for any probe vector. -/
theorem C2_save_load_roundtrip (vs : VectorStore) (p : String) (fs : Fs) :
    VectorStore.load p (VectorStore.save vs p fs) = .ok vs
      ∧ ∀ (q : List ℤ) (k : Nat),
          (VectorStore.load p (VectorStore.save vs p fs)).map
              (fun w => w.search q k)
            = .ok (vs.search q k) := by
  have hne : (p ++ ".index") ≠ (p ++ "_texts.pkl") := by
    intro h
    have hl := congrArg String.length h
    have h6 : (".index" : String).length = 6 := rfl
    have h10 : ("_texts.pkl" : String).length = 10 := rfl
    rw [String.length_append, String.length_append, h6, h10] at hl
    omega
  have h1 : (VectorStore.save vs p fs) (p ++ ".index")
      = some (.indexFile vs.dim vs.vectors) := by
    simp [VectorStore.save, hne]
  have h2 : (VectorStore.save vs p fs) (p ++ "_texts.pkl")
      = some (.textsFile vs.texts) := by
    simp [VectorStore.save]
  have hload : VectorStore.load p (VectorStore.save vs p fs) = .ok vs := by
    unfold VectorStore.load
    rw [h1, h2]
  exact ⟨hload, fun q k => by rw [hload]; rfl⟩

/-! ### Claim C3 -/

/-- C3 counterexample: `add` accepts a batch of two vectors paired with one
chunk — there is no `len(vectors) == len(chunks)` check — leaving the two
parallel sequences desynchronized (2 vectors, 1 chunk). -/
theorem C3_cex_add_skips_length_check :
    VectorStore.add ⟨1, [], []⟩ [[1], [2]] ["a"]
        = .ok ⟨1, [[1], [2]], ["a"]⟩
      ∧ [[(1 : ℤ)], [2]].length ≠ ["a"].length
      ∧ (VectorStore.mk 1 [[1], [2]] ["a"]).vectors.length
          ≠ (VectorStore.mk 1 [[1], [2]] ["a"]).texts.length := by
  refine ⟨by decide, by decide, by decide⟩

/-- C3 amended: `add` never compares `len(vectors)` with `len(chunks)`; on
success the vector sequence grows by `len(vectors)` and the chunk sequence
by `len(chunks)`, so the invariant `len(vectors) == len(chunks)` is
preserved only when the caller passes equally long batches; failures raise
before any mutation (all-or-nothing holds for them). -/
theorem C3_amended_growth (vs : VectorStore) (vectors : List (List ℤ))
    (chunks : List String) (vs' : VectorStore)
    (h : vs.add vectors chunks = .ok vs') :
    vs'.vectors.length = vs.vectors.length + vectors.length
      ∧ vs'.texts.length = vs.texts.length + chunks.length
      ∧ (vectors.length = chunks.length →
          vs.vectors.length = vs.texts.length →
          vs'.vectors.length = vs'.texts.length) := by
  cases vectors with
  | nil => simp [VectorStore.add] at h
  | cons v0 vt =>
    simp only [VectorStore.add] at h
    split at h
    · exact absurd h (by simp)
    · split at h
      · exact absurd h (by simp)
      · have hv : vs' = ⟨vs.dim, vs.vectors ++ v0 :: vt, vs.texts ++ chunks⟩ :=
          (Except.ok.inj h).symm
        subst hv
        refine ⟨by simp, by simp, ?_⟩
        intro hlen hinv
        simp only [List.length_append] at *
        omega

/-- C3 amended, witnessed at a concrete equal-length call. -/
theorem C3_amended_growth_witness :
    (VectorStore.mk 1 [[1]] ["a"]).vectors.length
        = (VectorStore.mk 1 [] []).vectors.length + [[(1 : ℤ)]].length
      ∧ (VectorStore.mk 1 [[1]] ["a"]).texts.length
          = (VectorStore.mk 1 [] []).texts.length + ["a"].length
      ∧ ([[(1 : ℤ)]].length = ["a"].length →
          (VectorStore.mk 1 [] []).vectors.length
              = (VectorStore.mk 1 [] []).texts.length →
          (VectorStore.mk 1 [[1]] ["a"]).vectors.length
              = (VectorStore.mk 1 [[1]] ["a"]).texts.length) :=
  C3_amended_growth ⟨1, [], []⟩ [[1]] ["a"] ⟨1, [[1]], ["a"]⟩ (by decide)

/-! ### Claim C4 -/

/-- C4: constructing a store with a `dim` that is not a positive integer
fails with the invalid-dimension `ValueError`, and `add` with any vector
whose length differs from the stored `dim` fails (first-vector mismatch
fails the explicit check; a later mismatched vector makes the batch ragged
and fails the numpy conversion) rather than silently coercing. -/
theorem C4_dimension_validation :
    (∀ d : ℚ, ¬(d.den = 1 ∧ 0 < d.num) →
        VectorStore.create d
          = .error (.valueError "The dim parameter must be a positive integer"))
      ∧ ∀ (vs : VectorStore) (vectors : List (List ℤ)) (chunks : List String)
          (v : List ℤ), v ∈ vectors → v.length ≠ vs.dim →
          ∃ e, vs.add vectors chunks = .error e := by
  constructor
  · intro d hd
    unfold VectorStore.create
    rw [if_neg hd]
  · intro vs vectors chunks v hv hlen
    cases vectors with
    | nil => exact absurd hv (List.not_mem_nil v)
    | cons v0 vt =>
      by_cases h0 : v0.length ≠ vs.dim
      · refine ⟨.valueError "Vector dimension mismatch", ?_⟩
        rw [VectorStore.add, if_pos h0]
      · push_neg at h0
        have hany : (v0 :: vt).any (fun u => u.length ≠ v0.length) = true := by
          rw [List.any_eq_true]
          exact ⟨v, hv, by simp [h0, hlen]⟩
        refine ⟨.valueError "setting an array element with a sequence", ?_⟩
        rw [VectorStore.add, if_neg (by simp [h0]), if_pos hany]

/-- C4, witnessed: `create 0` is rejected and an `add` of a 2-dimensional
vector into a 1-dimensional store fails. -/
theorem C4_dimension_validation_witness :
    VectorStore.create 0
        = .error (.valueError "The dim parameter must be a positive integer")
      ∧ ∃ e, VectorStore.add ⟨1, [], []⟩ [[1, 2]] ["a"] = .error e :=
  ⟨C4_dimension_validation.1 0 (by decide),
   C4_dimension_validation.2 ⟨1, [], []⟩ [[1, 2]] ["a"] [1, 2] (by decide) (by decide)⟩

/-! ### Claim C9 -/

/-- C9 counterexample: a load failure that is not `FileNotFoundError` (for
example a corrupt index artifact) is swallowed — `load_course_store`
returns absent instead of propagating it. -/
theorem C9_cex_other_failure_swallowed :
    (load_course_store (fun _ => none)
        (fun _ => LoadOutcome.otherError "corrupt index artifact") "CS101").1 = none
      ∧ LoadOutcome.otherError "corrupt index artifact" ≠ LoadOutcome.notFound := by
  exact ⟨rfl, by decide⟩

/-- C9 amended: `load_course_store` returns the cached store when present;
otherwise it loads from the course's index path, caching and returning the
store on success, and returns absent both on `FileNotFoundError` and on
any other load failure (which is logged and swallowed, never
propagated). -/
theorem C9_amended_resolve (cache : Cache) (diskLoad : String → LoadOutcome)
    (cc : String) :
    (∀ vs, cache (pyUpper cc) = some vs →
        load_course_store cache diskLoad cc = (some vs, cache))
      ∧ (∀ vs, cache (pyUpper cc) = none →
          diskLoad (get_course_index_path cc) = .ok vs →
          (load_course_store cache diskLoad cc).1 = some vs
            ∧ (load_course_store cache diskLoad cc).2 (pyUpper cc) = some vs)
      ∧ (cache (pyUpper cc) = none →
          diskLoad (get_course_index_path cc) = .notFound →
          load_course_store cache diskLoad cc = (none, cache))
      ∧ ∀ m, cache (pyUpper cc) = none →
          diskLoad (get_course_index_path cc) = .otherError m →
          load_course_store cache diskLoad cc = (none, cache) := by
  refine ⟨?_, ?_, ?_, ?_⟩
  · intro vs hc
    simp [load_course_store, hc]
  · intro vs hc hd
    simp [load_course_store, hc, hd]
  · intro hc hd
    simp [load_course_store, hc, hd]
  · intro m hc hd
    simp [load_course_store, hc, hd]

/-- C9 amended, witnessed: an empty cache with a failing disk load yields
absent and leaves the cache unchanged. -/
theorem C9_amended_resolve_witness :
    load_course_store (fun _ => none)
        (fun _ => LoadOutcome.otherError "disk says no") "CS101"
      = (none, fun _ => none) :=
  (C9_amended_resolve (fun _ => none) (fun _ => LoadOutcome.otherError "disk says no")
    "CS101").2.2.2 "disk says no" rfl rfl

/-! ### Claim C10 -/

/-- C10 counterexample: `get_course_notes_path` uses the identifier
verbatim, so two case variants of the same course code yield different
notes paths — the derivation is not a function of a canonicalized
identifier. -/
theorem C10_cex_notes_path_case_sensitive :
    get_course_notes_path "comp2123" ≠ get_course_notes_path "COMP2123" := by
  decide

/-- C10 amended: the cache operations canonicalize to upper-case (and so
agree on all case variants of an identifier), `get_course_index_path`
canonicalizes to lower-case (case-insensitive, with a lower-case canonical
form rather than the claimed upper-case one), while
`get_course_notes_path` uses the identifier verbatim and is
case-sensitive; all the path derivations are pure functions of the base
directory and the identifier. -/
theorem C10_amended_canonicalization (cache : Cache) (cc : String) (vs : VectorStore) :
    get_course_notes_path cc = NOTES_BASE_DIR ++ "/" ++ cc
      ∧ get_course_index_path (pyUpper cc) = get_course_index_path cc
      ∧ get_course_store cache (pyUpper cc) = get_course_store cache cc
      ∧ get_course_store (set_course_store cache cc vs) (pyUpper cc) = some vs
      ∧ get_course_store (clear_course_cache cache cc) (pyUpper cc) = none := by
  refine ⟨rfl, ?_, ?_, ?_, ?_⟩
  · unfold get_course_index_path
    rw [pyLower_pyUpper]
  · unfold get_course_store
    rw [pyUpper_idem]
  · unfold get_course_store set_course_store
    rw [pyUpper_idem]
    simp
  · unfold get_course_store clear_course_cache
    rw [pyUpper_idem]
    simp

/-! ### Claim C1 -/

/-- C1 evaluated at the failing input: a store holding one vector and one
chunk, searched with `top_k = 3`, returns three results — FAISS pads the
missing result slots with label `-1`, the filter `i < len(self.texts)`
keeps `-1`, and the Python subscript `texts[-1]` wraps around to the last
chunk — contradicting both "returns exactly the stored count when `top_k`
exceeds it" and "the result never contains an out-of-range (including
negative/wrapped-around) entry". -/
theorem C1_search_padding_wraps_around :
    VectorStore.search ⟨1, [[0]], ["a"]⟩ [0] 3 = .ok ["a", "a", "a"]
      ∧ (VectorStore.mk 1 [[0]] ["a"]).texts.length = 1 :=
  ⟨by decide, rfl⟩

/-! ### Claim C6 -/

/-- Every result of the truncation loop extends to the input list. -/
theorem truncateAux_append (m : Nat) :
    ∀ (chunks : List String) (total : Nat),
      ∃ rest, truncateAux m chunks total ++ rest = chunks := by
  intro chunks
  induction chunks with
  | nil => exact fun _ => ⟨[], rfl⟩
  | cons c cs ih =>
    intro total
    unfold truncateAux
    by_cases h : total + estimate_tokens c ≤ m
    · rw [if_pos h]
      obtain ⟨rest, hrest⟩ := ih (total + estimate_tokens c)
      exact ⟨rest, by simp [hrest]⟩
    · rw [if_neg h]
      exact ⟨c :: cs, rfl⟩

/-- The truncation loop keeps the running total within the budget. -/
theorem truncateAux_sum (m : Nat) :
    ∀ (chunks : List String) (total : Nat),
      total + ((truncateAux m chunks total).map estimate_tokens).sum
        ≤ max m total := by
  intro chunks
  induction chunks with
  | nil => simp [truncateAux]
  | cons c cs ih =>
    intro total
    unfold truncateAux
    by_cases h : total + estimate_tokens c ≤ m
    · rw [if_pos h]
      have := ih (total + estimate_tokens c)
      have hmax : max m (total + estimate_tokens c) = m := Nat.max_eq_left h
      rw [hmax] at this
      simp only [List.map_cons, List.sum_cons]
      omega
    · rw [if_neg h]
      simp

/-- Any within-budget prefix of the input survives the truncation loop. -/
theorem truncateAux_maximal (m : Nat) :
    ∀ (p chunks : List String) (total : Nat) (r : List String),
      p ++ r = chunks → total + (p.map estimate_tokens).sum ≤ m →
      ∃ q, p ++ q = truncateAux m chunks total := by
  intro p
  induction p with
  | nil => exact fun chunks total r _ _ => ⟨truncateAux m chunks total, rfl⟩
  | cons c p' ih =>
    intro chunks total r hr hsum
    subst hr
    simp only [List.map_cons, List.sum_cons] at hsum
    have hc : total + estimate_tokens c ≤ m := by omega
    obtain ⟨q, hq⟩ := ih (p' ++ r) (total + estimate_tokens c) r rfl (by omega)
    refine ⟨q, ?_⟩
    simp only [truncateAux]
    rw [if_pos hc]
    simp [hq]

set_option maxRecDepth 40000 in
/-- C6: `truncate_chunks_by_tokens` returns a prefix of its input in the
original order, whose cumulative estimated tokens stay within the budget;
it keeps every within-budget prefix (so it stops exactly at the first
overflowing chunk, discarding it and everything after it); and on
`["a"*100, "b"*200, "c"*300]` with a budget of 60 tokens exactly the first
chunk is retained. -/
theorem C6_truncation :
    (∀ (chunks : List String) (max_tokens : Nat),
        ∃ rest, truncate_chunks_by_tokens chunks max_tokens ++ rest = chunks)
      ∧ (∀ (chunks : List String) (max_tokens : Nat),
          ((truncate_chunks_by_tokens chunks max_tokens).map estimate_tokens).sum
            ≤ max_tokens)
      ∧ (∀ (chunks : List String) (max_tokens : Nat) (p r : List String),
          p ++ r = chunks → (p.map estimate_tokens).sum ≤ max_tokens →
          ∃ q, p ++ q = truncate_chunks_by_tokens chunks max_tokens)
      ∧ truncate_chunks_by_tokens
            [String.mk (List.replicate 100 'a'), String.mk (List.replicate 200 'b'),
             String.mk (List.replicate 300 'c')] 60
          = [String.mk (List.replicate 100 'a')] := by
  refine ⟨?_, ?_, ?_, ?_⟩
  · exact fun chunks m => truncateAux_append m chunks 0
  · intro chunks m
    have := truncateAux_sum m chunks 0
    simpa using this
  · intro chunks m p r hr hsum
    exact truncateAux_maximal m p chunks 0 r hr (by simpa using hsum)
  · decide

/-- C6, witnessed: the within-budget prefix `["ab"]` of `["ab", "cd"]`
survives truncation with budget 100. -/
theorem C6_truncation_witness :
    ∃ q, ["ab"] ++ q = truncate_chunks_by_tokens ["ab", "cd"] 100 :=
  C6_truncation.2.2.1 ["ab", "cd"] 100 ["ab"] ["cd"] rfl (by decide)

/-! ### Claim C7 -/

/-- C7: in the deployed orchestrator (`backend/rag/qa.py`), whenever the
corpus resolves and the top-k search returns zero chunks, `answer_question`
returns the fixed not-found-in-notes sentence — an ordinary returned
answer, produced before any generation call, not an error path. -/
theorem C7_empty_search_not_found (courseCodeArg : Option String) (q : String)
    (cached loaded : Option VectorStore) (gen : Except String String)
    (vs : VectorStore) (qv : List ℤ)
    (hres : (match cached with | some v => some v | none => loaded) = some vs)
    (hsearch : vs.search qv 3 = .ok []) :
    backendAnswerQuestion courseCodeArg q cached loaded (.ok qv) gen
      = "I could not find relevant information in the course materials to answer your question." := by
  cases cached with
  | some v =>
    have hv : v = vs := by simpa using hres
    subst hv
    simp [backendAnswerQuestion, hsearch]
  | none =>
    have hl : loaded = some vs := by simpa using hres
    subst hl
    simp [backendAnswerQuestion, hsearch]

/-- C7, witnessed: a cached store whose texts list is empty while three
vectors are indexed makes the search filter drop every candidate, and the
orchestrator answers with the fixed sentence. -/
theorem C7_empty_search_not_found_witness :
    backendAnswerQuestion none "what is testing?"
        (some ⟨1, [[0], [1], [2]], []⟩) none (.ok [0]) (.error "unused")
      = "I could not find relevant information in the course materials to answer your question." :=
  C7_empty_search_not_found none "what is testing?"
    (some ⟨1, [[0], [1], [2]], []⟩) none (.error "unused")
    ⟨1, [[0], [1], [2]], []⟩ [0] rfl (by decide)

/-! ### Claim C8 -/

/-- C8: the orchestrator of `rag/qa.py` returns a string on every path: an
absent corpus yields the not-initialized diagnostic naming the build
command; a failure of the embedding call or of the generation call is
classified by exception class into the authentication, rate-limit, generic
API, or catch-all message, each returned rather than thrown; and the three
fixed classified messages are pairwise distinct (the catch-all embeds the
exception text after the "Error: " marker). -/
theorem C8_orchestrator_error_paths :
    (∀ (courseCodeArg : Option String) (q : String) (emb : Except ApiExc (List ℤ))
        (gen : Except ApiExc String),
        answer_question courseCodeArg q none none emb gen
          = "Error: Knowledge base for course "
            ++ pyUpper (courseCodeArg.getD DEFAULT_COURSE)
            ++ " is not initialized. Please run: scripts/manage_index.py build --notes "
            ++ get_course_notes_path (courseCodeArg.getD DEFAULT_COURSE))
      ∧ (∀ (courseCodeArg : Option String) (q : String)
          (cached loaded : Option VectorStore) (vs : VectorStore)
          (gen : Except ApiExc String) (m : String),
          (match cached with | some v => some v | none => loaded) = some vs →
          answer_question courseCodeArg q cached loaded (.error (.auth m)) gen
              = "Error: Authentication failed. Please check your OpenAI API key."
            ∧ answer_question courseCodeArg q cached loaded (.error (.rateLimit m)) gen
              = "Error: Too many requests to OpenAI. Please try again later."
            ∧ answer_question courseCodeArg q cached loaded (.error (.api m)) gen
              = "Error: OpenAI API error. Please try again."
            ∧ answer_question courseCodeArg q cached loaded (.error (.other m)) gen
              = "Error: " ++ m)
      ∧ (∀ (courseCodeArg : Option String) (q : String)
          (cached loaded : Option VectorStore) (vs : VectorStore) (qv : List ℤ)
          (cs : List String) (m : String),
          (match cached with | some v => some v | none => loaded) = some vs →
          vs.search qv 3 = .ok cs →
          answer_question courseCodeArg q cached loaded (.ok qv) (.error (.auth m))
              = "Error: Authentication failed. Please check your OpenAI API key."
            ∧ answer_question courseCodeArg q cached loaded (.ok qv) (.error (.rateLimit m))
              = "Error: Too many requests to OpenAI. Please try again later."
            ∧ answer_question courseCodeArg q cached loaded (.ok qv) (.error (.api m))
              = "Error: OpenAI API error. Please try again."
            ∧ answer_question courseCodeArg q cached loaded (.ok qv) (.error (.other m))
              = "Error: " ++ m)
      ∧ ("Error: Authentication failed. Please check your OpenAI API key."
            ≠ "Error: Too many requests to OpenAI. Please try again later."
          ∧ "Error: Authentication failed. Please check your OpenAI API key."
            ≠ "Error: OpenAI API error. Please try again."
          ∧ "Error: Too many requests to OpenAI. Please try again later."
            ≠ "Error: OpenAI API error. Please try again.") := by
  refine ⟨?_, ?_, ?_, by refine ⟨by decide, by decide, by decide⟩⟩
  · intro courseCodeArg q emb gen
    simp [answer_question]
  · intro courseCodeArg q cached loaded vs gen m hres
    cases cached with
    | some v =>
      have hv : v = vs := by simpa using hres
      subst hv
      exact ⟨by simp [answer_question], by simp [answer_question],
        by simp [answer_question], by simp [answer_question]⟩
    | none =>
      have hl : loaded = some vs := by simpa using hres
      subst hl
      exact ⟨by simp [answer_question], by simp [answer_question],
        by simp [answer_question], by simp [answer_question]⟩
  · intro courseCodeArg q cached loaded vs qv cs m hres hsearch
    cases cached with
    | some v =>
      have hv : v = vs := by simpa using hres
      subst hv
      exact ⟨by simp [answer_question, hsearch], by simp [answer_question, hsearch],
        by simp [answer_question, hsearch], by simp [answer_question, hsearch]⟩
    | none =>
      have hl : loaded = some vs := by simpa using hres
      subst hl
      exact ⟨by simp [answer_question, hsearch], by simp [answer_question, hsearch],
        by simp [answer_question, hsearch], by simp [answer_question, hsearch]⟩

/-- C8, witnessed: a concrete store with one chunk, a successful embedding,
and a generation call failing with each exception class produces the four
classified messages. -/
theorem C8_orchestrator_error_paths_witness :
    answer_question none "q" (some ⟨1, [[0]], ["a"]⟩) none (.ok [0])
          (.error (.auth "bad key"))
        = "Error: Authentication failed. Please check your OpenAI API key."
      ∧ answer_question none "q" (some ⟨1, [[0]], ["a"]⟩) none (.ok [0])
          (.error (.rateLimit "slow down"))
        = "Error: Too many requests to OpenAI. Please try again later."
      ∧ answer_question none "q" (some ⟨1, [[0]], ["a"]⟩) none (.ok [0])
          (.error (.api "boom"))
        = "Error: OpenAI API error. Please try again."
      ∧ answer_question none "q" (some ⟨1, [[0]], ["a"]⟩) none (.ok [0])
          (.error (.other "socket closed"))
        = "Error: " ++ "socket closed" := by
  have h1 := (C8_orchestrator_error_paths.2.2.1 none "q" (some ⟨1, [[0]], ["a"]⟩) none
    ⟨1, [[0]], ["a"]⟩ [0] ["a", "a", "a"] "bad key" rfl (by decide)).1
  have h2 := (C8_orchestrator_error_paths.2.2.1 none "q" (some ⟨1, [[0]], ["a"]⟩) none
    ⟨1, [[0]], ["a"]⟩ [0] ["a", "a", "a"] "slow down" rfl (by decide)).2.1
  have h3 := (C8_orchestrator_error_paths.2.2.1 none "q" (some ⟨1, [[0]], ["a"]⟩) none
    ⟨1, [[0]], ["a"]⟩ [0] ["a", "a", "a"] "boom" rfl (by decide)).2.2.1
  have h4 := (C8_orchestrator_error_paths.2.2.1 none "q" (some ⟨1, [[0]], ["a"]⟩) none
    ⟨1, [[0]], ["a"]⟩ [0] ["a", "a", "a"] "socket closed" rfl (by decide)).2.2.2
  exact ⟨h1, h2, h3, h4⟩

/-! ### Claim C5: word-window lemmas -/

/-- The chunking worker on an empty word list yields no chunks, whatever
the fuel. -/
theorem chunkWordsAux_nil (size step fuel : Nat) :
    chunkWordsAux size step fuel [] = [] := by
  cases fuel <;> rfl

/-- With a positive step, the fuel is irrelevant once it covers the word
count. -/
theorem chunkWordsAux_fuel_eq (size step : Nat) (hstep : 1 ≤ step) :
    ∀ (f1 : Nat) (ws : List String) (f2 : Nat),
      ws.length ≤ f1 → ws.length ≤ f2 →
      chunkWordsAux size step f1 ws = chunkWordsAux size step f2 ws := by
  intro f1
  induction f1 with
  | zero =>
    intro ws f2 h1 _
    have hws : ws = [] := List.eq_nil_of_length_eq_zero (Nat.le_zero.mp h1)
    subst hws
    rw [chunkWordsAux_nil, chunkWordsAux_nil]
  | succ a ih =>
    intro ws f2 h1 h2
    cases ws with
    | nil => rw [chunkWordsAux_nil, chunkWordsAux_nil]
    | cons w wt =>
      cases f2 with
      | zero => simp at h2
      | succ b =>
        show (w :: wt).take size :: chunkWordsAux size step a ((w :: wt).drop step)
            = (w :: wt).take size :: chunkWordsAux size step b ((w :: wt).drop step)
        congr 1
        apply ih
        · simp only [List.length_drop, List.length_cons] at *
          omega
        · simp only [List.length_drop, List.length_cons] at *
          omega

/-- Unfolding law for `chunkWords` on a nonempty word list. -/
theorem chunkWords_cons (size ov : Nat) (h : ov < size) (w : String) (wt : List String) :
    chunkWords (w :: wt) size ov
      = (w :: wt).take size :: chunkWords ((w :: wt).drop (size - ov)) size ov := by
  show (w :: wt).take size
        :: chunkWordsAux size (size - ov) wt.length ((w :: wt).drop (size - ov))
      = (w :: wt).take size
        :: chunkWordsAux size (size - ov) ((w :: wt).drop (size - ov)).length
            ((w :: wt).drop (size - ov))
  congr 1
  apply chunkWordsAux_fuel_eq size (size - ov) (by omega)
  · simp only [List.length_drop, List.length_cons]
    omega
  · exact Nat.le_refl _

/-- A nonempty word list yields at least one chunk. -/
theorem chunkWords_ne_nil (size ov : Nat) (h : ov < size) (ws : List String)
    (hws : ws ≠ []) : chunkWords ws size ov ≠ [] := by
  cases ws with
  | nil => exact absurd rfl hws
  | cons w wt =>
    rw [chunkWords_cons size ov h]
    exact List.cons_ne_nil _ _

/-- Structural form of the overlap invariant: for the first two produced
windows, the last `overlap` words of the first equal the first `overlap`
words of the second, whenever the second holds at least `overlap` words. -/
theorem chunkWords_overlap_head (size ov : Nat) (h : ov < size) (ws : List String)
    (c0 c1 : List String) (cs : List (List String))
    (hc : chunkWords ws size ov = c0 :: c1 :: cs) (h1 : ov ≤ c1.length) :
    c0.drop (c0.length - ov) = c1.take ov := by
  by_cases hov : ov = 0
  · subst hov
    simp [List.drop_length]
  cases ws with
  | nil => simp [chunkWords, chunkWordsAux] at hc
  | cons w wt =>
    rw [chunkWords_cons size ov h] at hc
    have hc0 : c0 = (w :: wt).take size := (List.cons.inj hc).1.symm
    have hrest : chunkWords ((w :: wt).drop (size - ov)) size ov = c1 :: cs :=
      (List.cons.inj hc).2
    cases hD : (w :: wt).drop (size - ov) with
    | nil =>
      rw [hD] at hrest
      simp [chunkWords, chunkWordsAux] at hrest
    | cons d dt =>
      rw [hD, chunkWords_cons size ov h] at hrest
      have hc1 : c1 = (d :: dt).take size := (List.cons.inj hrest).1.symm
      have hlen_drop : (d :: dt).length = (w :: wt).length - (size - ov) := by
        rw [← hD, List.length_drop]
      have h1x : ov ≤ (d :: dt).length := by
        rw [hc1, List.length_take] at h1
        omega
      have hfull : size ≤ (w :: wt).length := by omega
      have hlen_c0 : c0.length = size := by
        rw [hc0, List.length_take]
        omega
      have key : ((w :: wt).take size).drop (size - ov)
          = ((w :: wt).drop (size - ov)).take ov := by
        rw [List.take_drop]
        have e3 : (size - ov) + ov = size := by omega
        rw [e3]
      rw [hlen_c0, hc0, hc1, key, hD, List.take_take, min_eq_left h.le]

/-- Word-level overlap invariant at every pair of consecutive windows. -/
theorem chunkWords_overlap (size ov : Nat) (h : ov < size) :
    ∀ (i : Nat) (ws : List String), i + 1 < (chunkWords ws size ov).length →
      ov ≤ ((chunkWords ws size ov).getD i []).length →
      ov ≤ ((chunkWords ws size ov).getD (i + 1) []).length →
      ((chunkWords ws size ov).getD i []).drop
          (((chunkWords ws size ov).getD i []).length - ov)
        = ((chunkWords ws size ov).getD (i + 1) []).take ov := by
  intro i
  induction i with
  | zero =>
    intro ws hlen _h0 h1
    cases hc : chunkWords ws size ov with
    | nil => rw [hc] at hlen; simp at hlen
    | cons c0 rest =>
      cases rest with
      | nil => rw [hc] at hlen; simp at hlen
      | cons c1 cs =>
        rw [hc] at h1
        simp only [List.getD_cons_zero, List.getD_cons_succ] at h1 ⊢
        exact chunkWords_overlap_head size ov h ws c0 c1 cs hc h1
  | succ i ih =>
    intro ws hlen h0 h1
    cases ws with
    | nil => simp [chunkWords, chunkWordsAux] at hlen
    | cons w wt =>
      rw [chunkWords_cons size ov h] at hlen h0 h1 ⊢
      simp only [List.getD_cons_succ, List.length_cons] at hlen h0 h1 ⊢
      exact ih _ (by omega) h0 h1

/-- Word-level tail coverage: the final window is a full suffix of the
word list — no dropped tail. -/
theorem chunkWordsAux_tail (size ov : Nat) (h : ov < size) :
    ∀ (fuel : Nat) (ws : List String), ws ≠ [] → ws.length ≤ fuel →
      ∃ m, (chunkWordsAux size (size - ov) fuel ws).getLast? = some (ws.drop m) := by
  intro fuel
  induction fuel with
  | zero =>
    intro ws hne hlen
    cases ws with
    | nil => exact absurd rfl hne
    | cons w wt => simp at hlen
  | succ f ih =>
    intro ws hne hlen
    cases ws with
    | nil => exact absurd rfl hne
    | cons w wt =>
      show ∃ m, ((w :: wt).take size
          :: chunkWordsAux size (size - ov) f ((w :: wt).drop (size - ov))).getLast?
        = some ((w :: wt).drop m)
      cases hD : (w :: wt).drop (size - ov) with
      | nil =>
        refine ⟨0, ?_⟩
        rw [chunkWordsAux_nil]
        have hlen2 : (w :: wt).length ≤ size := by
          have := List.drop_eq_nil_iff.mp hD
          omega
        rw [List.take_of_length_le hlen2, List.drop_zero]
        rfl
      | cons d dt =>
        have hfd : (d :: dt).length ≤ f := by
          have hld : (d :: dt).length = (w :: wt).length - (size - ov) := by
            rw [← hD, List.length_drop]
          simp only [List.length_cons] at *
          omega
        obtain ⟨m, hm⟩ := ih (d :: dt) (List.cons_ne_nil d dt) hfd
        refine ⟨(size - ov) + m, ?_⟩
        cases hcs : chunkWordsAux size (size - ov) f (d :: dt) with
        | nil => rw [hcs] at hm; simp at hm
        | cons c cs =>
          rw [hcs] at hm
          rw [List.getLast?_cons_cons, hm, ← hD, List.drop_drop]

/-- Every word of every produced window is a word of the input list. -/
theorem chunkWordsAux_mem (size step : Nat) :
    ∀ (fuel : Nat) (ws : List String) (c : List String),
      c ∈ chunkWordsAux size step fuel ws → ∀ x ∈ c, x ∈ ws := by
  intro fuel
  induction fuel with
  | zero =>
    intro ws c hc
    cases ws with
    | nil => simp [chunkWordsAux] at hc
    | cons w wt => simp [chunkWordsAux] at hc
  | succ f ih =>
    intro ws c hc
    cases ws with
    | nil => simp [chunkWordsAux] at hc
    | cons w wt =>
      rcases List.mem_cons.mp hc with hc1 | hc1
      · intro x hx
        exact List.take_subset _ _ (hc1 ▸ hx)
      · intro x hx
        exact List.drop_subset _ _ (ih ((w :: wt).drop step) c hc1 x hx)

/-! ### Claim C5: split/join lemmas -/

/-- Scanning a whitespace-free prefix only accumulates its characters. -/
theorem pySplitAux_push :
    ∀ (pre cs cur : List Char), (∀ c ∈ pre, isPySpace c = false) →
      pySplitAux (pre ++ cs) cur = pySplitAux cs (pre.reverse ++ cur) := by
  intro pre
  induction pre with
  | nil =>
    intro cs cur _
    simp
  | cons c pre' ih =>
    intro cs cur hns
    have hc : isPySpace c = false := hns c (List.mem_cons_self c pre')
    show pySplitAux (c :: (pre' ++ cs)) cur = _
    simp only [pySplitAux, hc]
    rw [ih cs (c :: cur) (fun x hx => hns x (List.mem_cons_of_mem c hx))]
    simp [List.append_assoc]

/-- Flushing the accumulator at a space character. -/
theorem pySplitAux_space_flush (rest cur : List Char) (hcur : cur ≠ []) :
    pySplitAux (' ' :: rest) cur = String.mk cur.reverse :: pySplitAux rest [] := by
  simp only [pySplitAux]
  rw [if_pos (by rfl), if_neg hcur]

/-- Splitting a single good word recovers it. -/
theorem pySplit_single (w : String) (hw : goodWord w) : pySplit w = [w] := by
  have h2 := pySplitAux_push w.data [] [] hw.2
  simp only [List.append_nil] at h2
  show pySplitAux w.data [] = [w]
  rw [h2]
  cases hrev : w.data.reverse with
  | nil => exact absurd (List.reverse_eq_nil_iff.mp hrev) hw.1
  | cons c rest =>
    show [String.mk (c :: rest).reverse] = [w]
    rw [← hrev, List.reverse_reverse]

/-- Round-trip law: splitting a space-join of good words recovers the
words. -/
theorem pySplit_join : ∀ (ws : List String), (∀ w ∈ ws, goodWord w) →
    pySplit (joinWords ws) = ws := by
  intro ws
  induction ws with
  | nil =>
    intro _
    have hj : joinWords [] = "" := by simp [joinWords]
    rw [hj]
    rfl
  | cons w wt ih =>
    intro hws
    cases wt with
    | nil =>
      have h1 := pySplit_single w (hws w (by simp))
      simpa [joinWords] using h1
    | cons w2 wt2 =>
      have hdata : (w ++ " " ++ joinWords (w2 :: wt2)).data
          = w.data ++ (' ' :: (joinWords (w2 :: wt2)).data) := by
        simp
      simp only [joinWords, pySplit]
      rw [hdata, pySplitAux_push w.data _ [] (hws w (by simp)).2]
      simp only [List.append_nil]
      have hcurne : w.data.reverse ≠ [] := by
        rw [Ne, List.reverse_eq_nil_iff]
        exact (hws w (by simp)).1
      rw [pySplitAux_space_flush _ _ hcurne, List.reverse_reverse]
      have h2 : pySplitAux (joinWords (w2 :: wt2)).data [] = w2 :: wt2 :=
        ih (fun x hx => hws x (List.mem_cons_of_mem _ hx))
      rw [h2]

/-- Every word emitted by the splitting worker is good, provided the
accumulator holds only non-space characters. -/
theorem pySplitAux_good :
    ∀ (cs cur : List Char), (∀ c ∈ cur, isPySpace c = false) →
      ∀ w ∈ pySplitAux cs cur, goodWord w := by
  intro cs
  induction cs with
  | nil =>
    intro cur hcur w hw
    cases cur with
    | nil => simp [pySplitAux] at hw
    | cons c cur' =>
      have hred : pySplitAux [] (c :: cur') = [String.mk (c :: cur').reverse] := rfl
      rw [hred] at hw
      have hwv : w = String.mk (c :: cur').reverse := by simpa using hw
      subst hwv
      constructor
      · show (c :: cur').reverse ≠ []
        simp
      · intro x hx
        exact hcur x (List.mem_reverse.mp hx)
  | cons c rest ih =>
    intro cur hcur w hw
    by_cases hsp : isPySpace c = true
    · have hred : pySplitAux (c :: rest) cur
          = if cur = [] then pySplitAux rest []
            else String.mk cur.reverse :: pySplitAux rest [] := by
        simp only [pySplitAux]
        rw [if_pos hsp]
      rw [hred] at hw
      by_cases hcur0 : cur = []
      · rw [if_pos hcur0] at hw
        exact ih [] (by simp) w hw
      · rw [if_neg hcur0] at hw
        rcases List.mem_cons.mp hw with h1 | h1
        · subst h1
          constructor
          · show cur.reverse ≠ []
            rw [Ne, List.reverse_eq_nil_iff]
            exact hcur0
          · intro x hx
            exact hcur x (List.mem_reverse.mp hx)
        · exact ih [] (by simp) w h1
    · have hsp' : isPySpace c = false := by simpa using hsp
      have hred : pySplitAux (c :: rest) cur = pySplitAux rest (c :: cur) := by
        simp [pySplitAux, hsp']
      rw [hred] at hw
      refine ih (c :: cur) ?_ w hw
      intro x hx
      rcases List.mem_cons.mp hx with h1 | h1
      · subst h1
        exact hsp'
      · exact hcur x h1

/-- Every word produced by `pySplit` is good. -/
theorem pySplit_good (s : String) : ∀ w ∈ pySplit s, goodWord w :=
  pySplitAux_good s.data [] (by simp)

/-- Element access through a `map`, with defaults. -/
theorem getD_map_of_lt {α β : Type} (f : α → β) :
    ∀ (l : List α) (i : Nat) (hd : β) (d : α), i < l.length →
      (l.map f).getD i hd = f (l.getD i d) := by
  intro l
  induction l with
  | nil =>
    intro i hd d h
    simp at h
  | cons a l ih =>
    intro i hd d h
    cases i with
    | zero => rfl
    | succ i =>
      simp only [List.map_cons, List.getD_cons_succ]
      exact ih i hd d (by simpa using h)

/-- An in-range `getD` access yields an element of the list. -/
theorem getD_mem_of_lt {α : Type} :
    ∀ (l : List α) (i : Nat) (d : α), i < l.length → l.getD i d ∈ l := by
  intro l
  induction l with
  | nil =>
    intro i d h
    simp at h
  | cons a l ih =>
    intro i d h
    cases i with
    | zero => exact List.mem_cons_self a l
    | succ i =>
      simp only [List.getD_cons_succ]
      exact List.mem_cons_of_mem a (ih i d (by simpa using h))

/-- Splitting the `i`-th produced chunk string recovers the `i`-th word
window: the words of every window are words of the input, hence good, and
the space-join/split round trip is the identity on good words. -/
theorem chunk_text_words (text : String) (size ov : Nat) (i : Nat)
    (h : i < (chunkWords (pySplit text) size ov).length) :
    pySplit ((chunk_text text size ov).getD i "")
      = (chunkWords (pySplit text) size ov).getD i [] := by
  unfold chunk_text
  rw [getD_map_of_lt joinWords _ i "" [] h]
  apply pySplit_join
  intro w hw
  have hchunk_mem : (chunkWords (pySplit text) size ov).getD i []
      ∈ chunkWords (pySplit text) size ov := getD_mem_of_lt _ i [] h
  have hmem : w ∈ pySplit text :=
    chunkWordsAux_mem size (size - ov) (pySplit text).length (pySplit text) _
      hchunk_mem w hw
  exact pySplit_good text w hmem

set_option maxRecDepth 100000 in
/-- C5 (the chunker is modelled from the spec, its module being absent from
the source tree): for `overlap < chunk_size`, whenever two consecutive
produced chunks both hold at least `overlap` words, the last `overlap`
words of the earlier chunk equal the first `overlap` words of the later
one; the final chunk is the join of a full suffix of the input's word list
(no dropped tail); and the 1100-word test input with `chunk_size = 500`,
`overlap = 50` yields at least 3 chunks whose first two overlap in exactly
the expected 50 words. -/
theorem C5_chunking :
    (∀ (text : String) (size ov : Nat), ov < size →
        ∀ i, i + 1 < (chunk_text text size ov).length →
          ov ≤ (pySplit ((chunk_text text size ov).getD i "")).length →
          ov ≤ (pySplit ((chunk_text text size ov).getD (i + 1) "")).length →
          (pySplit ((chunk_text text size ov).getD i "")).drop
              ((pySplit ((chunk_text text size ov).getD i "")).length - ov)
            = (pySplit ((chunk_text text size ov).getD (i + 1) "")).take ov)
      ∧ (∀ (text : String) (size ov : Nat), ov < size → pySplit text ≠ [] →
          ∃ m, (chunk_text text size ov).getLast?
            = some (joinWords ((pySplit text).drop m)))
      ∧ 3 ≤ (chunk_text text1100 500 50).length
      ∧ (pySplit ((chunk_text text1100 500 50).getD 0 "")).drop
            ((pySplit ((chunk_text text1100 500 50).getD 0 "")).length - 50)
          = (pySplit ((chunk_text text1100 500 50).getD 1 "")).take 50 := by
  have hsplit : pySplit text1100 = List.replicate 1100 "w" := by
    unfold text1100
    apply pySplit_join
    intro w hw
    have hww : w = "w" := List.eq_of_mem_replicate hw
    subst hww
    decide
  refine ⟨?_, ?_, ?_, ?_⟩
  · intro text size ov h i hlen h0 h1
    have hlen' : i + 1 < (chunkWords (pySplit text) size ov).length := by
      simpa [chunk_text] using hlen
    have e0 := chunk_text_words text size ov i (by omega)
    have e1 := chunk_text_words text size ov (i + 1) hlen'
    rw [e0] at h0
    rw [e1] at h1
    rw [e0, e1]
    exact chunkWords_overlap size ov h i (pySplit text) hlen' h0 h1
  · intro text size ov h hne
    obtain ⟨m, hm⟩ := chunkWordsAux_tail size ov h (pySplit text).length
      (pySplit text) hne (Nat.le_refl _)
    refine ⟨m, ?_⟩
    unfold chunk_text
    rw [List.getLast?_map]
    show (chunkWords (pySplit text) size ov).getLast?.map joinWords = _
    rw [show chunkWords (pySplit text) size ov
        = chunkWordsAux size (size - ov) (pySplit text).length (pySplit text) from rfl]
    rw [hm]
    rfl
  · show 3 ≤ (chunk_text text1100 500 50).length
    unfold chunk_text
    rw [List.length_map, hsplit]
    decide
  · have e0 := chunk_text_words text1100 500 50 0 (by rw [hsplit]; decide)
    have e1 := chunk_text_words text1100 500 50 1 (by rw [hsplit]; decide)
    rw [e0, e1, hsplit]
    decide

/-- C5, witnessed on a four-word text chunked with size 3 and overlap 1:
the first two chunks overlap in one word, and the final chunk joins a full
suffix of the word list. -/
theorem C5_chunking_witness :
    ((pySplit ((chunk_text "a b c d" 3 1).getD 0 "")).drop
          ((pySplit ((chunk_text "a b c d" 3 1).getD 0 "")).length - 1)
        = (pySplit ((chunk_text "a b c d" 3 1).getD (0 + 1) "")).take 1)
      ∧ ∃ m, (chunk_text "a b" 2 1).getLast?
          = some (joinWords ((pySplit "a b").drop m)) := by
  constructor
  · apply C5_chunking.1 "a b c d" 3 1 (by decide) 0
    · show 0 + 1 < ((chunkWords (pySplit "a b c d") 3 1).map joinWords).length
      rw [List.length_map]
      decide
    · rw [chunk_text_words "a b c d" 3 1 0 (by decide)]
      decide
    · rw [chunk_text_words "a b c d" 3 1 (0 + 1) (by decide)]
      decide
  · exact C5_chunking.2.1 "a b" 2 1 (by decide) (by decide)

end StudyAssistant
